import Mathlib

set_option maxRecDepth 4000

/-!
Verification of the VitrOS kernel core: a shallow embedding of the
two-tier heap allocator (slab + buddy), the paging address-translation
and MMIO/huge-page mapping routines, the compositor buffer registration
(copy-on-write snapshot discipline) and the wait queue, together with
theorems settling the specification claims about them.

Machine integers (u64 / usize) are embedded as Nat; the one place where
64-bit wrap-around is observable (phys_to_virt addition) carries an
explicit reduction modulo 2 to the 64.  Intrusive free lists are embedded
as lists of block addresses; the statically allocated page-table arrays
are embedded as total functions from the global page (or directory)
index to the raw 64-bit entry value.
-/

namespace VitrOS

/-! ## Allocator data model (src/kernel/src/allocator.rs) -/

/-- Rust core alloc Layout: a size and an alignment (alignment is at
least 1 for every Rust layout). -/
structure Layout where
  size : Nat
  align : Nat
  deriving DecidableEq

/-- Pointwise update of a free-list table. -/
def update (f : Nat → List Nat) (i : Nat) (v : List Nat) : Nat → List Nat :=
  fun j => if j = i then v else f j

/-- Embeds the u64 bit-length computation 64 - (n.leading_zeros) used by
size_to_order and size_to_class; the fuel argument is the 64-bit width,
so values of 2 to the 64 or more (unrepresentable in Rust) saturate. -/
def bitLenAux : Nat → Nat → Nat
  | 0, _ => 0
  | fuel + 1, n => if n = 0 then 0 else bitLenAux fuel (n / 2) + 1

/-- Bit length of a u64 value: 64 - leading_zeros n. -/
def bitLen (n : Nat) : Nat := bitLenAux 64 n

/-- BuddyAllocator::size_to_order: smallest order whose block holds size
bytes (orders count 4 KiB units; result saturates at 0 from below). -/
def sizeToOrder (size : Nat) : Nat :=
  if size ≤ 4096 then 0 else bitLen (size - 1) - 12

/-- KernelAllocator::size_to_class: index into the ten slab size classes
(8 shifted left by the index), none when the request exceeds 4096. -/
def sizeToClass (size : Nat) : Option Nat :=
  if size = 0 then some 0
  else if 4096 < size then none
  else some (bitLen (size - 1) - 3)

/-- BuddyAllocator::order_to_size: 4096 shifted left by the order. -/
def orderToSize (order : Nat) : Nat := 4096 * 2 ^ order

/-- The buddy allocator state: one (intrusive, here address-list) free
list per order 0..12, plus the aligned region bounds. -/
structure BuddyState where
  freeLists : Nat → List Nat
  regionStart : Nat
  regionSize : Nat

/-- BuddyAllocator::buddy_address: XOR of the region-relative address
with the block size of the order. -/
def buddy_address (st : BuddyState) (addr order : Nat) : Nat :=
  st.regionStart + ((addr - st.regionStart) ^^^ orderToSize order)

/-- The scan in BuddyAllocator::allocate over orders
required_order..MAX_ORDER for the first non-empty free list; the fuel is
MAX_ORDER - order at the call site. -/
def findFreeOrder (fl : Nat → List Nat) : Nat → Nat → Option Nat
  | _, 0 => none
  | order, fuel + 1 =>
    if (fl order).isEmpty then findFreeOrder fl (order + 1) fuel else some order

/-- The split loop of BuddyAllocator::allocate: for order in
(required..found) in reverse, push the upper half of the block being
split onto the free list of that order.  steps = found - required. -/
def splitBlocks (blockAddr : Nat) : Nat → Nat → (Nat → List Nat) → Nat → List Nat
  | _, 0, fl => fl
  | order, steps + 1, fl =>
    splitBlocks blockAddr (order - 1) steps
      (update fl (order - 1) ((blockAddr + orderToSize (order - 1)) :: fl (order - 1)))

/-- BuddyAllocator::allocate: round the effective size up to a block
order, find the first non-empty list at or above it, pop its head, split
down to the required order and return the lower address. -/
def BuddyAllocator.allocate (st : BuddyState) (l : Layout) : Option (Nat × BuddyState) :=
  let size := max (max l.size l.align) 4096
  let requiredOrder := sizeToOrder size
  if 13 ≤ requiredOrder then none
  else
    match findFreeOrder st.freeLists requiredOrder (13 - requiredOrder) with
    | none => none
    | some found =>
      match st.freeLists found with
      | [] => none
      | head :: tail =>
        let fl2 := splitBlocks head found (found - requiredOrder) (update st.freeLists found tail)
        some (head, { st with freeLists := fl2 })

/-- The merge loop of BuddyAllocator::deallocate: while order is below
MAX_ORDER - 1, compute the buddy; stop if it is outside the region or
not on the free list of the current order, otherwise splice it out and
continue one order up from the lower of the two addresses.  The fuel is
(MAX_ORDER - 1) - order at the call site. -/
def coalesceLoop (rs re : Nat) : Nat → Nat → Nat → (Nat → List Nat) → Nat × Nat × (Nat → List Nat)
  | 0, blockAddr, order, fl => (blockAddr, order, fl)
  | fuel + 1, blockAddr, order, fl =>
    let buddy := rs + ((blockAddr - rs) ^^^ orderToSize order)
    if buddy < rs ∨ re ≤ buddy then (blockAddr, order, fl)
    else if buddy ∈ fl order then
      coalesceLoop rs re fuel (min blockAddr buddy) (order + 1)
        (update fl order ((fl order).erase buddy))
    else (blockAddr, order, fl)

/-- BuddyAllocator::deallocate: merge with free buddies as far as
possible, then push the resulting block onto the free list of its final
order. -/
def BuddyAllocator.deallocate (st : BuddyState) (ptr : Nat) (l : Layout) : BuddyState :=
  let size := max (max l.size l.align) 4096
  let order := sizeToOrder size
  let re := st.regionStart + st.regionSize
  let r := coalesceLoop st.regionStart re (12 - order) ptr order st.freeLists
  { st with freeLists := update r.2.2 r.2.1 (r.1 :: r.2.2 r.2.1) }

/-- The full kernel allocator: ten slab LIFO free lists (indexed by size
class) in front of the buddy allocator. -/
structure AllocState where
  slab : Nat → List Nat
  buddy : BuddyState

/-- KernelAllocator::alloc (GlobalAlloc::alloc): try the slab size class
of max(size, align) first; on a miss or an oversize request fall through
to the buddy allocator.  none embeds the null-pointer return. -/
def KernelAllocator.alloc (st : AllocState) (l : Layout) : Option Nat × AllocState :=
  let size := max l.size l.align
  match sizeToClass size with
  | some ci =>
    match st.slab ci with
    | p :: rest => (some p, { st with slab := update st.slab ci rest })
    | [] =>
      match BuddyAllocator.allocate st.buddy l with
      | some pb => (some pb.1, { st with buddy := pb.2 })
      | none => (none, st)
  | none =>
    match BuddyAllocator.allocate st.buddy l with
    | some pb => (some pb.1, { st with buddy := pb.2 })
    | none => (none, st)

/-- KernelAllocator::dealloc (GlobalAlloc::dealloc): zero-size layouts
return immediately; otherwise the pointer is routed by address to the
buddy region or to its slab size class. -/
def KernelAllocator.dealloc (st : AllocState) (ptr : Nat) (l : Layout) : AllocState :=
  if l.size = 0 then st
  else if st.buddy.regionStart ≤ ptr then
    { st with buddy := BuddyAllocator.deallocate st.buddy ptr l }
  else
    let size := max l.size l.align
    match sizeToClass size with
    | some ci => { st with slab := update st.slab ci (ptr :: st.slab ci) }
    | none => st

/-! ## Paging (src/kernel/src/paging.rs) -/

/-- The error type of the paging module. -/
inductive PagingError where
  | InvalidAddress
  | AddressConversionFailed
  | GuardPageSetupFailed
  | PageTableInitFailed
  | AddressOutOfRange
  | FeatureNotSupported
  | ExistingMappingConflict
  deriving DecidableEq

/-- Base of the higher-half kernel mapping. -/
def KERNEL_VIRTUAL_BASE : Nat := 0xFFFF800000000000

/-- 2 to the 64: u64 arithmetic wraps at this bound. -/
def U64_LIMIT : Nat := 18446744073709551616

/-- phys_to_virt: fails on the null physical address, otherwise adds the
kernel base (u64 addition, hence the wrap). -/
def phys_to_virt (physAddr : Nat) : Except PagingError Nat :=
  if physAddr = 0 then .error .InvalidAddress
  else .ok ((physAddr + KERNEL_VIRTUAL_BASE) % U64_LIMIT)

/-- virt_to_phys: fails below the kernel base, otherwise subtracts it
(checked_sub cannot fail once the guard passed). -/
def virt_to_phys (virtAddr : Nat) : Except PagingError Nat :=
  if virtAddr < KERNEL_VIRTUAL_BASE then .error .InvalidAddress
  else .ok (virtAddr - KERNEL_VIRTUAL_BASE)

/-- Bits 12..51 of a page-table entry hold the physical address. -/
def PHYSICAL_ADDRESS_MASK : Nat := 0x000FFFFFFFFFF000

/-- PageTableEntry::set: mask the address and install the flags. -/
def entrySet (addr flags : Nat) : Nat := (addr &&& PHYSICAL_ADDRESS_MASK) ||| flags

/-- PageTableEntry::is_present: bit 0. -/
def is_present (e : Nat) : Bool := e &&& 1 != 0

/-- PageTableEntry::is_huge_page: bit 7. -/
def is_huge_page (e : Nat) : Bool := e &&& 128 != 0

/-- map_mmio flags: Present, Writable, CacheDisable. -/
def UC_FLAGS : Nat := 1 ||| 2 ||| 16

/-- map_huge_2mb base flags: Present, Writable, HugePage. -/
def HUGE_FLAGS : Nat := 1 ||| 2 ||| 128

/-- The page loop of map_mmio.  KERNEL_PT_HIGH is embedded as a function
from the global page number (pt_array_idx * 512 + entry index) to the
raw entry; the loop installs UC entries for pages i..pageCount of the
request, failing when a page falls beyond the PT_COUNT = 4096 tables. -/
def mapMmioLoop (physAddr : Nat) : Nat → Nat → (Nat → Nat) → Except PagingError (Nat → Nat)
  | _, 0, pt => .ok pt
  | i, remaining + 1, pt =>
    let addr := physAddr + i * 4096
    let pageNum := addr / 4096
    let ptArrayIdx := pageNum / 512
    if 4096 ≤ ptArrayIdx then .error .PageTableInitFailed
    else mapMmioLoop physAddr (i + 1) remaining
      (fun n => if n = pageNum then entrySet addr UC_FLAGS else pt n)

/-- map_mmio: check 4 KiB alignment, install ceil(size/4096) UC entries,
flush the TLB (not observable here) and return phys_to_virt(phys). -/
def mapMmio (pt : Nat → Nat) (physAddr size : Nat) : Except PagingError ((Nat → Nat) × Nat) :=
  if physAddr % 4096 ≠ 0 then .error .InvalidAddress
  else
    let pageCount := (size + 4095) / 4096
    match mapMmioLoop physAddr 0 pageCount pt with
    | .error e => .error e
    | .ok pt1 =>
      match phys_to_virt physAddr with
      | .error e => .error e
      | .ok v => .ok (pt1, v)

/-- map_huge_2mb.  KERNEL_PD_HIGH is embedded as a function from the
global 2 MiB directory index to the raw entry.  A present entry without
the HugePage bit is a live page-table reference and is a conflict; any
other existing entry is overwritten. -/
def mapHuge2mb (pd : Nat → Nat) (physAddr flags : Nat) : Except PagingError ((Nat → Nat) × Nat) :=
  if physAddr % 2097152 ≠ 0 then .error .InvalidAddress
  else
    let pdGlobalIdx := physAddr / 2097152
    if 8 ≤ pdGlobalIdx / 512 then .error .AddressOutOfRange
    else if is_present (pd pdGlobalIdx) && !is_huge_page (pd pdGlobalIdx) then
      .error .ExistingMappingConflict
    else
      let pd1 := fun n =>
        if n = pdGlobalIdx then entrySet physAddr (HUGE_FLAGS ||| flags) else pd n
      match phys_to_virt physAddr with
      | .error e => .error e
      | .ok v => .ok (pd1, v)

/-! ## Compositor buffer registration (src/kernel/src/graphics/compositor.rs)

The live list of draw buffers is an Arc of an immutable Vec; a snapshot
is a clone of that Arc.  The Arc heap is embedded as a store from
pointer names to buffer-id lists: register_writer allocates a fresh
pointer for the extended list and repoints the live field, never writing
through an existing pointer, which is exactly the copy-on-write
discipline the claims are about. -/

structure CompositorState where
  store : Nat → List Nat
  cur : Nat
  nextPtr : Nat
  nextBuf : Nat

/-- Compositor::register_writer: build a fresh buffer, clone the current
list, push the buffer, and replace the live Arc with the new list. -/
def register_writer (st : CompositorState) : Nat × CompositorState :=
  let buffer := st.nextBuf
  let newList := st.store st.cur ++ [buffer]
  (buffer,
    { store := fun p => if p = st.nextPtr then newList else st.store p
      cur := st.nextPtr
      nextPtr := st.nextPtr + 1
      nextBuf := st.nextBuf + 1 })

/-- Compositor::get_buffers_snapshot: clone of the live Arc. -/
def get_buffers_snapshot (st : CompositorState) : Nat := st.cur

/-- Dereference a snapshot (read the Vec behind the Arc). -/
def read_snapshot (st : CompositorState) (snap : Nat) : List Nat := st.store snap

/-! ## Wait queue (src/kernel/src/sync/wait_queue.rs)

The queue is a VecDeque of task ids; block_current_task and
unblock_task are recorded as an event trace. -/

inductive WQEvent where
  | block (t : Nat)
  | unblock (t : Nat)
  deriving DecidableEq

/-- WaitQueue::wait: push_back the current task id, then block it. -/
def WaitQueue.wait (q : List Nat) (current : Nat) : List Nat × List WQEvent :=
  (q ++ [current], [.block current])

/-- WaitQueue::wake_one: pop_front; unblock the popped id and report
true, or report false on an empty queue. -/
def WaitQueue.wake_one (q : List Nat) : Bool × List Nat × List WQEvent :=
  match q with
  | [] => (false, [], [])
  | t :: rest => (true, rest, [.unblock t])

/-- WaitQueue::wake_all: pop_front and unblock until the queue is
empty. -/
def WaitQueue.wake_all (q : List Nat) : List Nat × List WQEvent :=
  match q with
  | [] => ([], [])
  | t :: rest =>
    let r := WaitQueue.wake_all rest
    (r.1, .unblock t :: r.2)

/-! ## Bit-length lemmas -/

theorem bitLenAux_le_iff : ∀ (fuel n m : Nat), n < 2 ^ fuel → (bitLenAux fuel n ≤ m ↔ n < 2 ^ m) := by
  intro fuel
  induction fuel with
  | zero =>
    intro n m h
    have hn : n = 0 := by simpa using h
    subst hn
    have hpos : 0 < 2 ^ m := Nat.pow_pos (by norm_num)
    simp [bitLenAux, hpos]
  | succ fuel ih =>
    intro n m h
    by_cases hn : n = 0
    · subst hn
      have hpos : 0 < 2 ^ m := Nat.pow_pos (by norm_num)
      simp [bitLenAux, hpos]
    · simp only [bitLenAux, if_neg hn]
      cases m with
      | zero =>
        simp only [Nat.pow_zero]
        omega
      | succ m =>
        have hdiv : n / 2 < 2 ^ fuel := by
          rw [Nat.pow_succ] at h
          omega
        rw [Nat.succ_le_succ_iff, ih (n / 2) m hdiv, Nat.pow_succ]
        omega

theorem lt_bitLenAux : ∀ (fuel n m : Nat), 2 ^ m ≤ n → m < fuel → m < bitLenAux fuel n := by
  intro fuel
  induction fuel with
  | zero => intro n m _ h; omega
  | succ fuel ih =>
    intro n m hle hlt
    have hpos : 0 < 2 ^ m := Nat.pow_pos (by norm_num)
    have hn : n ≠ 0 := by omega
    simp only [bitLenAux, if_neg hn]
    cases m with
    | zero => omega
    | succ m =>
      have h2 : 2 ^ m ≤ n / 2 := by
        rw [Nat.pow_succ] at hle
        omega
      have := ih (n / 2) m h2 (by omega)
      omega

theorem bitLen_eq_clog (n : Nat) (h1 : 1 ≤ n) (h2 : n ≤ 2 ^ 64) : bitLen (n - 1) = Nat.clog 2 n := by
  have hb : (1 : Nat) < 2 := by norm_num
  have hlt : n - 1 < 2 ^ 64 := by omega
  apply le_antisymm
  · rw [bitLen, bitLenAux_le_iff 64 (n - 1) _ hlt]
    have := Nat.le_pow_clog hb n
    omega
  · rw [← Nat.le_pow_iff_clog_le hb]
    have := (bitLenAux_le_iff 64 (n - 1) (bitLenAux 64 (n - 1)) hlt).mp (le_refl _)
    rw [bitLen]
    omega

/-! ## Fixed states used by the witnesses -/

/-- An empty allocator state (all free lists empty, region at 0). -/
def allocState0 : AllocState :=
  { slab := fun _ => []
    buddy := { freeLists := fun _ => [], regionStart := 0, regionSize := 0 } }

/-- A compositor state with one allocated (empty) buffer list. -/
def compositor0 : CompositorState :=
  { store := fun _ => [], cur := 0, nextPtr := 1, nextBuf := 0 }

/-! ## Claim C2: physical/virtual address translation -/

/-- Reduction of Except.bind on an ok value (kept as a rewrite rule so
that proofs never force definitional unfolding of the translation
functions on open terms). -/
theorem exceptBindOk {ε α β : Type} (a : α) (f : α → Except ε β) :
    (Except.ok a : Except ε α).bind f = f a := rfl

/-- C2 (amended): for 0 < p < 2 to the 47, phys_to_virt p succeeds with
p + KERNEL_VIRTUAL_BASE and virt_to_phys undoes it; phys_to_virt fails
exactly on p = 0; virt_to_phys fails on every address below the kernel
base. -/
theorem phys_virt_roundtrip (p : Nat) (hp : 0 < p) (hlt : p < 140737488355328) :
    phys_to_virt p = .ok (p + KERNEL_VIRTUAL_BASE) ∧
    (phys_to_virt p).bind virt_to_phys = .ok p ∧
    (∀ q : Nat, (∃ e, phys_to_virt q = .error e) ↔ q = 0) ∧
    (∀ v : Nat, v < KERNEL_VIRTUAL_BASE → virt_to_phys v = .error .InvalidAddress) := by
  have hmod : (p + KERNEL_VIRTUAL_BASE) % U64_LIMIT = p + KERNEL_VIRTUAL_BASE := by
    apply Nat.mod_eq_of_lt
    simp only [KERNEL_VIRTUAL_BASE, U64_LIMIT]
    omega
  have h1 : phys_to_virt p = .ok (p + KERNEL_VIRTUAL_BASE) := by
    unfold phys_to_virt
    rw [if_neg (by omega), hmod]
  have h2 : virt_to_phys (p + KERNEL_VIRTUAL_BASE) = .ok p := by
    unfold virt_to_phys
    rw [if_neg (by omega), Nat.add_sub_cancel]
  refine ⟨h1, ?_, ?_, ?_⟩
  · rw [h1, exceptBindOk, h2]
  · intro q
    by_cases hq : q = 0 <;> simp [phys_to_virt, hq]
  · intro v hv
    unfold virt_to_phys
    rw [if_pos hv]

/-- Witness for phys_virt_roundtrip at p = 1. -/
theorem phys_virt_roundtrip_witness :
    0 < 1 ∧ (1 : Nat) < 140737488355328 ∧
    (phys_to_virt 1 = .ok (1 + KERNEL_VIRTUAL_BASE) ∧
     (phys_to_virt 1).bind virt_to_phys = .ok 1 ∧
     (∀ q : Nat, (∃ e, phys_to_virt q = .error e) ↔ q = 0) ∧
     (∀ v : Nat, v < KERNEL_VIRTUAL_BASE → virt_to_phys v = .error .InvalidAddress)) :=
  ⟨by decide, by decide, phys_virt_roundtrip 1 (by decide) (by decide)⟩

/-- C2 counterexample: at p = 2 to the 47 the u64 addition wraps to 0,
phys_to_virt succeeds with 0 and the round trip fails. -/
theorem phys_virt_counterexample :
    phys_to_virt 140737488355328 = .ok 0 ∧
    virt_to_phys 0 = .error .InvalidAddress ∧
    (phys_to_virt 140737488355328).bind virt_to_phys ≠ .ok 140737488355328 := by
  refine ⟨rfl, rfl, ?_⟩
  have h : (phys_to_virt 140737488355328).bind virt_to_phys =
      (.error .InvalidAddress : Except PagingError Nat) := rfl
  rw [h]
  intro hcontra
  exact Except.noConfusion hcontra

/-! ## Claim C6: copy-on-write buffer snapshots -/

/-- C6: register_writer produces a snapshot that contains the freshly
created buffer (appended at the tail of the previous list), while every
previously allocated snapshot still dereferences to exactly the list it
held, because the new list lives behind a fresh pointer. -/
theorem register_writer_cow (st : CompositorState) (s : Nat) (hs : s < st.nextPtr) :
    (register_writer st).1 ∈
      read_snapshot (register_writer st).2 (get_buffers_snapshot (register_writer st).2) ∧
    read_snapshot (register_writer st).2 (get_buffers_snapshot (register_writer st).2) =
      read_snapshot st (get_buffers_snapshot st) ++ [(register_writer st).1] ∧
    read_snapshot (register_writer st).2 s = read_snapshot st s := by
  refine ⟨?_, ?_, ?_⟩
  · simp [register_writer, read_snapshot, get_buffers_snapshot]
  · simp [register_writer, read_snapshot, get_buffers_snapshot]
  · simp [register_writer, read_snapshot, get_buffers_snapshot, Nat.ne_of_lt hs]

/-- Witness for register_writer_cow on a one-pointer store. -/
theorem register_writer_cow_witness :
    0 < compositor0.nextPtr ∧
    ((register_writer compositor0).1 ∈
      read_snapshot (register_writer compositor0).2
        (get_buffers_snapshot (register_writer compositor0).2) ∧
     read_snapshot (register_writer compositor0).2
        (get_buffers_snapshot (register_writer compositor0).2) =
      read_snapshot compositor0 (get_buffers_snapshot compositor0) ++
        [(register_writer compositor0).1] ∧
     read_snapshot (register_writer compositor0).2 0 = read_snapshot compositor0 0) :=
  ⟨by decide, register_writer_cow compositor0 0 (by decide)⟩

/-! ## Claim C7: wait queue FIFO discipline -/

/-- C7: wait appends the current task at the tail and blocks it;
wake_one pops the head (least recently enqueued), unblocks it and
reports true, or reports false on the empty queue leaving it empty;
wake_all drains the queue unblocking in FIFO order. -/
theorem wait_queue_fifo (q rest : List Nat) (t h : Nat) :
    WaitQueue.wait q t = (q ++ [t], [WQEvent.block t]) ∧
    WaitQueue.wake_one [] = (false, [], []) ∧
    WaitQueue.wake_one (h :: rest) = (true, rest, [WQEvent.unblock h]) ∧
    WaitQueue.wake_all q = ([], q.map WQEvent.unblock) := by
  refine ⟨rfl, rfl, rfl, ?_⟩
  induction q with
  | nil => rfl
  | cons a as ih => simp [WaitQueue.wake_all, ih]

/-! ## Claim C8: zero-size dealloc is a no-op -/

/-- C8: dealloc with a zero-size layout returns before touching any
slab or buddy free list. -/
theorem dealloc_zero_noop (st : AllocState) (ptr : Nat) (l : Layout) (h : l.size = 0) :
    KernelAllocator.dealloc st ptr l = st := by
  simp [KernelAllocator.dealloc, h]

/-- Witness for dealloc_zero_noop. -/
theorem dealloc_zero_noop_witness :
    (Layout.mk 0 1).size = 0 ∧
    KernelAllocator.dealloc allocState0 7 (Layout.mk 0 1) = allocState0 :=
  ⟨rfl, dealloc_zero_noop allocState0 7 (Layout.mk 0 1) rfl⟩

/-! ## Claim C10: oversize allocations fail without touching state -/

/-- C10: once the effective request exceeds 16 MiB the required buddy
order reaches MAX_ORDER = 13, so alloc returns the null pointer and the
state (every slab and buddy free list) is unchanged. -/
theorem alloc_oversize_null (st : AllocState) (l : Layout)
    (h : 16777216 < max l.size l.align) :
    KernelAllocator.alloc st l = (none, st) := by
  have h4096 : 4096 < max l.size l.align := by omega
  have hclass : sizeToClass (max l.size l.align) = none := by
    unfold sizeToClass
    rw [if_neg (by omega), if_pos h4096]
  have hbuddy : BuddyAllocator.allocate st.buddy l = none := by
    have hord : 13 ≤ sizeToOrder (max (max l.size l.align) 4096) := by
      unfold sizeToOrder
      rw [if_neg (by omega)]
      have h1 : (2 : Nat) ^ 24 ≤ max (max l.size l.align) 4096 - 1 := by
        have hpow : (2 : Nat) ^ 24 = 16777216 := by norm_num
        omega
      have h2 := lt_bitLenAux 64 (max (max l.size l.align) 4096 - 1) 24 h1 (by omega)
      rw [bitLen]
      omega
    simp only [BuddyAllocator.allocate]
    rw [if_pos hord]
  simp only [KernelAllocator.alloc, hclass]
  rw [hbuddy]

/-- Witness for alloc_oversize_null at a 16 MiB + 1 request. -/
theorem alloc_oversize_null_witness :
    16777216 < max 16777217 1 ∧
    KernelAllocator.alloc allocState0 (Layout.mk 16777217 1) = (none, allocState0) :=
  ⟨by decide, alloc_oversize_null allocState0 (Layout.mk 16777217 1) (by decide)⟩

/-! ## Free-list table update lemmas -/

theorem update_same (f : Nat → List Nat) (i : Nat) (v : List Nat) :
    update f i v i = v := by
  simp [update]

theorem update_ne (f : Nat → List Nat) (i : Nat) (v : List Nat) (j : Nat) (h : j ≠ i) :
    update f i v j = f j := by
  simp [update, h]

/-! ## Claim C4: alloc dispatch (size class and buddy order) -/

theorem class_formula (e : Nat) (h1 : 1 ≤ e) (h2 : e ≤ 4096) :
    sizeToClass e = some (Nat.clog 2 (max e 8) - 3) := by
  have hp64 : (2 : Nat) ^ 64 = 18446744073709551616 := by norm_num
  unfold sizeToClass
  rw [if_neg (by omega), if_neg (by omega)]
  congr 1
  by_cases h8 : e ≤ 8
  · have hmax : max e 8 = 8 := max_eq_right h8
    rw [hmax]
    have hc : Nat.clog 2 8 = 3 := by
      apply le_antisymm
      · rw [← Nat.le_pow_iff_clog_le (by norm_num : (1 : Nat) < 2)]
      · have := (Nat.pow_lt_iff_lt_clog (by norm_num : (1 : Nat) < 2)).mp
          (show (2 : Nat) ^ 2 < 8 by norm_num)
        omega
    rw [hc]
    have hb : bitLen (e - 1) ≤ 3 := by
      rw [bitLen, bitLenAux_le_iff 64 (e - 1) 3 (by omega)]
      have hp3 : (2 : Nat) ^ 3 = 8 := by norm_num
      omega
    omega
  · have hmax : max e 8 = e := max_eq_left (by omega)
    rw [hmax, bitLen_eq_clog e h1 (by omega)]

theorem order_formula (e : Nat) (h1 : 1 ≤ e) (h64 : e ≤ 18446744073709551616) :
    sizeToOrder (max e 4096) = Nat.clog 2 e - 12 := by
  have hp64 : (2 : Nat) ^ 64 = 18446744073709551616 := by norm_num
  by_cases h : e ≤ 4096
  · have hmax : max e 4096 = 4096 := max_eq_right h
    rw [hmax]
    unfold sizeToOrder
    rw [if_pos (le_refl 4096)]
    have hc : Nat.clog 2 e ≤ 12 := by
      rw [← Nat.le_pow_iff_clog_le (by norm_num : (1 : Nat) < 2)]
      have hp12 : (2 : Nat) ^ 12 = 4096 := by norm_num
      omega
    omega
  · have hmax : max e 4096 = e := max_eq_left (by omega)
    rw [hmax]
    unfold sizeToOrder
    rw [if_neg (by omega), bitLen_eq_clog e h1 (by omega)]

/-- C4: with effective = max(size, align), a request of effective at most
4096 selects size class ceil(log2(max(effective,8))) - 3 and, when that
class is non-empty, pops and returns its LIFO head; when the class is
empty or effective exceeds 4096 the request falls through to the buddy
allocator, whose required order is ceil(log2(effective)) - 12 floored at
0. -/
theorem alloc_dispatch (st : AllocState) (l : Layout)
    (h1 : 1 ≤ max l.size l.align) (h64 : max l.size l.align ≤ 18446744073709551616) :
    (max l.size l.align ≤ 4096 →
      sizeToClass (max l.size l.align) =
        some (Nat.clog 2 (max (max l.size l.align) 8) - 3)) ∧
    (∀ ci p rest, sizeToClass (max l.size l.align) = some ci → st.slab ci = p :: rest →
      KernelAllocator.alloc st l = (some p, { st with slab := update st.slab ci rest })) ∧
    ((4096 < max l.size l.align ∨
        ∀ ci, sizeToClass (max l.size l.align) = some ci → st.slab ci = []) →
      KernelAllocator.alloc st l =
        match BuddyAllocator.allocate st.buddy l with
        | some pb => (some pb.1, { st with buddy := pb.2 })
        | none => (none, st)) ∧
    sizeToOrder (max (max l.size l.align) 4096) = Nat.clog 2 (max l.size l.align) - 12 := by
  refine ⟨?_, ?_, ?_, ?_⟩
  · intro hle
    exact class_formula _ h1 hle
  · intro ci p rest hci hl
    simp only [KernelAllocator.alloc, hci, hl]
  · intro hcase
    have hroute : sizeToClass (max l.size l.align) = none ∨
        ∃ ci, sizeToClass (max l.size l.align) = some ci ∧ st.slab ci = [] := by
      rcases hcase with hgt | hempty
      · left
        unfold sizeToClass
        rw [if_neg (by omega), if_pos hgt]
      · by_cases hle : max l.size l.align ≤ 4096
        · have hci := class_formula _ h1 hle
          exact Or.inr ⟨_, hci, hempty _ hci⟩
        · left
          unfold sizeToClass
          rw [if_neg (by omega), if_pos (by omega)]
    cases hb : BuddyAllocator.allocate st.buddy l with
    | none =>
      rcases hroute with hnone | ⟨ci, hci, hemp⟩
      · simp only [KernelAllocator.alloc, hnone, hb]
      · simp only [KernelAllocator.alloc, hci, hemp, hb]
    | some pb =>
      rcases hroute with hnone | ⟨ci, hci, hemp⟩
      · simp only [KernelAllocator.alloc, hnone, hb]
      · simp only [KernelAllocator.alloc, hci, hemp, hb]
  · exact order_formula _ h1 h64

/-- Witness for alloc_dispatch at a 12-byte layout. -/
theorem alloc_dispatch_witness :
    1 ≤ max 12 1 ∧ max 12 1 ≤ 18446744073709551616 ∧
    ((max 12 1 ≤ 4096 →
      sizeToClass (max 12 1) = some (Nat.clog 2 (max (max 12 1) 8) - 3)) ∧
     (∀ ci p rest, sizeToClass (max 12 1) = some ci →
        allocState0.slab ci = p :: rest →
        KernelAllocator.alloc allocState0 (Layout.mk 12 1) =
          (some p, { allocState0 with slab := update allocState0.slab ci rest })) ∧
     ((4096 < max 12 1 ∨
        ∀ ci, sizeToClass (max 12 1) = some ci → allocState0.slab ci = []) →
       KernelAllocator.alloc allocState0 (Layout.mk 12 1) =
         match BuddyAllocator.allocate allocState0.buddy (Layout.mk 12 1) with
         | some pb => (some pb.1, { allocState0 with buddy := pb.2 })
         | none => (none, allocState0)) ∧
     sizeToOrder (max (max 12 1) 4096) = Nat.clog 2 (max 12 1) - 12) :=
  ⟨by decide, by decide,
    alloc_dispatch allocState0 (Layout.mk 12 1) (by decide) (by decide)⟩

/-! ## Claim C5: buddy allocation split policy -/

theorem findFreeOrder_spec (fl : Nat → List Nat) :
    ∀ (fuel order f : Nat), order ≤ f → f < order + fuel →
      (∀ j, order ≤ j → j < f → fl j = []) → fl f ≠ [] →
      findFreeOrder fl order fuel = some f := by
  intro fuel
  induction fuel with
  | zero => intro order f hof hfo _ _; omega
  | succ fuel ih =>
    intro order f hof hfo hbelow hne
    by_cases he : order = f
    · subst he
      have hne2 : ¬ (fl order).isEmpty := by
        simpa [List.isEmpty_iff] using hne
      simp only [findFreeOrder, if_neg hne2]
    · have hemp : (fl order).isEmpty := by
        rw [List.isEmpty_iff]
        exact hbelow order (le_refl _) (by omega)
      simp only [findFreeOrder, if_pos hemp]
      exact ih (order + 1) f (by omega) (by omega)
        (fun j hj1 hj2 => hbelow j (by omega) hj2) hne

theorem splitBlocks_spec (a : Nat) :
    ∀ (steps order : Nat) (fl : Nat → List Nat) (j : Nat), steps ≤ order →
      splitBlocks a order steps fl j =
        if order - steps ≤ j ∧ j < order then (a + orderToSize j) :: fl j else fl j := by
  intro steps
  induction steps with
  | zero =>
    intro order fl j _
    simp only [splitBlocks]
    rw [if_neg (by omega)]
  | succ steps ih =>
    intro order fl j hso
    simp only [splitBlocks]
    rw [ih (order - 1) _ j (by omega)]
    by_cases hj : j = order - 1
    · subst hj
      rw [if_neg (by omega), update_same, if_pos (by omega)]
    · rw [update_ne _ _ _ _ hj]
      by_cases hc : order - (steps + 1) ≤ j ∧ j < order
      · rw [if_pos (by omega), if_pos hc]
      · rw [if_neg (by omega), if_neg hc]

/-- C5: a buddy allocation of required order r served from the first
non-empty order f pops the head block, pushes its upper half onto every
intermediate order from f-1 down to r, and returns the lower address to
the caller; no other free list changes. -/
theorem buddy_alloc_split (st : BuddyState) (l : Layout) (r f head : Nat) (tail : List Nat)
    (hr : r = sizeToOrder (max (max l.size l.align) 4096))
    (hrf : r ≤ f) (hf : f < 13)
    (hempty : ∀ j, r ≤ j → j < f → st.freeLists j = [])
    (hhead : st.freeLists f = head :: tail) :
    BuddyAllocator.allocate st l = some (head,
      { st with freeLists := fun j =>
          if j = f then tail
          else if r ≤ j ∧ j < f then (head + orderToSize j) :: st.freeLists j
          else st.freeLists j }) := by
  have hfind : findFreeOrder st.freeLists r (13 - r) = some f :=
    findFreeOrder_spec st.freeLists (13 - r) r f hrf (by omega) hempty
      (by rw [hhead]; simp)
  have hsplit : splitBlocks head f (f - r) (update st.freeLists f tail) = fun j =>
      if j = f then tail
      else if r ≤ j ∧ j < f then (head + orderToSize j) :: st.freeLists j
      else st.freeLists j := by
    funext j
    rw [splitBlocks_spec head (f - r) f (update st.freeLists f tail) j (by omega)]
    have hfr : f - (f - r) = r := by omega
    rw [hfr]
    by_cases hj : j = f
    · subst hj
      rw [if_neg (by omega), update_same, if_pos rfl]
    · rw [update_ne _ _ _ _ hj, if_neg hj]
  simp only [BuddyAllocator.allocate]
  rw [← hr]
  rw [if_neg (by omega : ¬ 13 ≤ r)]
  simp only [hfind, hhead, hsplit]

/-- A buddy state with a single order-2 block at address 0. -/
def buddyW : BuddyState :=
  { freeLists := fun j => if j = 2 then [0] else []
    regionStart := 0
    regionSize := 16777216 }

/-- Witness for buddy_alloc_split: an order-0 request splits the order-2
block at 0, pushing 8192 onto order 1 and 4096 onto order 0. -/
theorem buddy_alloc_split_witness :
    (0 : Nat) = sizeToOrder (max (max 4096 1) 4096) ∧ (0 : Nat) ≤ 2 ∧ (2 : Nat) < 13 ∧
    (∀ j, 0 ≤ j → j < 2 → buddyW.freeLists j = []) ∧
    buddyW.freeLists 2 = 0 :: [] ∧
    BuddyAllocator.allocate buddyW (Layout.mk 4096 1) = some (0,
      { buddyW with freeLists := fun j =>
          if j = 2 then []
          else if 0 ≤ j ∧ j < 2 then (0 + orderToSize j) :: buddyW.freeLists j
          else buddyW.freeLists j }) :=
  ⟨by decide, by decide, by decide,
    fun j _ hj => if_neg (by omega), rfl,
    buddy_alloc_split buddyW (Layout.mk 4096 1) 0 2 0 [] (by decide) (by decide)
      (by decide) (fun j _ hj => if_neg (by omega)) rfl⟩

/-! ## Claim C3: buddy deallocation merges free buddies -/

theorem coalesceLoop_frame (rs re : Nat) :
    ∀ (fuel a o : Nat) (fl : Nat → List Nat) (j : Nat), j < o →
      (coalesceLoop rs re fuel a o fl).2.2 j = fl j := by
  intro fuel
  induction fuel with
  | zero => intro a o fl j _; rfl
  | succ fuel ih =>
    intro a o fl j hj
    simp only [coalesceLoop]
    split_ifs with h1 h2
    · rfl
    · rw [ih _ (o + 1) _ j (by omega), update_ne _ _ _ _ (by omega)]
    · rfl

theorem coalesceLoop_order_le (rs re : Nat) :
    ∀ (fuel a o : Nat) (fl : Nat → List Nat), o ≤ (coalesceLoop rs re fuel a o fl).2.1 := by
  intro fuel
  induction fuel with
  | zero => intro a o fl; exact le_refl o
  | succ fuel ih =>
    intro a o fl
    simp only [coalesceLoop]
    split_ifs with h1 h2
    · exact le_refl o
    · exact le_trans (by omega) (ih _ (o + 1) _)
    · exact le_refl o

/-- C3: when a block of order k is freed while its order-k buddy sits on
the order-k free list (k below the top merge order, buddy inside the
region, the list well formed), the merge splices the buddy out in one
step and continues upward, so afterwards neither the freed address nor
the buddy remains on the order-k list. -/
theorem buddy_dealloc_merge (st : BuddyState) (ptr : Nat) (l : Layout) (k : Nat)
    (hk : k = sizeToOrder (max (max l.size l.align) 4096))
    (hk12 : k < 12)
    (hreg : buddy_address st ptr k < st.regionStart + st.regionSize)
    (hmem : buddy_address st ptr k ∈ st.freeLists k)
    (hnd : (st.freeLists k).Nodup)
    (hptr : ptr ∉ st.freeLists k) :
    ptr ∉ (BuddyAllocator.deallocate st ptr l).freeLists k ∧
    buddy_address st ptr k ∉ (BuddyAllocator.deallocate st ptr l).freeLists k := by
  have key : (BuddyAllocator.deallocate st ptr l).freeLists k =
      (st.freeLists k).erase (buddy_address st ptr k) := by
    unfold buddy_address at hreg hmem
    simp only [BuddyAllocator.deallocate]
    rw [← hk]
    have hfuel : 12 - k = (11 - k) + 1 := by omega
    rw [hfuel]
    simp only [coalesceLoop]
    rw [if_neg (by omega), if_pos hmem]
    have hord := coalesceLoop_order_le st.regionStart (st.regionStart + st.regionSize)
      (11 - k)
      (min ptr (st.regionStart + ((ptr - st.regionStart) ^^^ orderToSize k)))
      (k + 1)
      (update st.freeLists k
        ((st.freeLists k).erase (st.regionStart + ((ptr - st.regionStart) ^^^ orderToSize k))))
    rw [update_ne _ _ _ _ (by omega)]
    rw [coalesceLoop_frame st.regionStart (st.regionStart + st.regionSize) (11 - k) _ (k + 1)
      _ k (by omega)]
    rw [update_same]
    unfold buddy_address
    rfl
  constructor
  · rw [key]
    intro hmem2
    exact hptr (List.mem_of_mem_erase hmem2)
  · rw [key]
    exact List.Nodup.not_mem_erase hnd

/-- A buddy state with a single free order-0 block at address 4096. -/
def buddyD : BuddyState :=
  { freeLists := fun j => if j = 0 then [4096] else []
    regionStart := 0
    regionSize := 16777216 }

/-- Witness for buddy_dealloc_merge: freeing the order-0 block at 0
merges with its free buddy 4096. -/
theorem buddy_dealloc_merge_witness :
    (0 : Nat) = sizeToOrder (max (max 4096 1) 4096) ∧ (0 : Nat) < 12 ∧
    buddy_address buddyD 0 0 < buddyD.regionStart + buddyD.regionSize ∧
    buddy_address buddyD 0 0 ∈ buddyD.freeLists 0 ∧
    (buddyD.freeLists 0).Nodup ∧
    (0 : Nat) ∉ buddyD.freeLists 0 ∧
    ((0 : Nat) ∉ (BuddyAllocator.deallocate buddyD 0 (Layout.mk 4096 1)).freeLists 0 ∧
     buddy_address buddyD 0 0 ∉
       (BuddyAllocator.deallocate buddyD 0 (Layout.mk 4096 1)).freeLists 0) :=
  ⟨by decide, by decide, by decide, by decide, by decide, by decide,
    buddy_dealloc_merge buddyD 0 (Layout.mk 4096 1) 0 (by decide) (by decide) (by decide)
      (by decide) (by decide) (by decide)⟩

/-! ## Claim C1: map_mmio installs UC entries -/

theorem entrySet_uc_bits (addr : Nat) :
    Nat.testBit (entrySet addr UC_FLAGS) 0 = true ∧
    Nat.testBit (entrySet addr UC_FLAGS) 1 = true ∧
    Nat.testBit (entrySet addr UC_FLAGS) 4 = true ∧
    Nat.testBit (entrySet addr UC_FLAGS) 63 = false := by
  unfold entrySet UC_FLAGS PHYSICAL_ADDRESS_MASK
  refine ⟨?_, ?_, ?_, ?_⟩
  · rw [Nat.testBit_lor, show Nat.testBit (1 ||| 2 ||| 16) 0 = true by decide, Bool.or_true]
  · rw [Nat.testBit_lor, show Nat.testBit (1 ||| 2 ||| 16) 1 = true by decide, Bool.or_true]
  · rw [Nat.testBit_lor, show Nat.testBit (1 ||| 2 ||| 16) 4 = true by decide, Bool.or_true]
  · rw [Nat.testBit_lor, Nat.testBit_land,
      show Nat.testBit 0x000FFFFFFFFFF000 63 = false by decide,
      show Nat.testBit (1 ||| 2 ||| 16) 63 = false by decide,
      Bool.and_false, Bool.or_false]

theorem mapMmioLoop_spec (physAddr : Nat) (hal : physAddr % 4096 = 0) :
    ∀ (remaining i : Nat) (pt : Nat → Nat),
      physAddr / 4096 + i + remaining ≤ 2097152 →
      ∃ pt1, mapMmioLoop physAddr i remaining pt = .ok pt1 ∧
        ∀ n, pt1 n =
          if physAddr / 4096 + i ≤ n ∧ n < physAddr / 4096 + i + remaining
          then entrySet (4096 * n) UC_FLAGS else pt n := by
  intro remaining
  induction remaining with
  | zero =>
    intro i pt _
    refine ⟨pt, rfl, fun n => ?_⟩
    rw [if_neg (by omega)]
  | succ remaining ih =>
    intro i pt hb
    have hpage : (physAddr + i * 4096) / 4096 = physAddr / 4096 + i := by omega
    have hidx : ¬ 4096 ≤ (physAddr + i * 4096) / 4096 / 512 := by omega
    simp only [mapMmioLoop]
    rw [if_neg hidx]
    obtain ⟨pt1, heq, hchar⟩ := ih (i + 1)
      (fun n => if n = (physAddr + i * 4096) / 4096
        then entrySet (physAddr + i * 4096) UC_FLAGS else pt n) (by omega)
    refine ⟨pt1, heq, fun n => ?_⟩
    rw [hchar n]
    by_cases hn2 : physAddr / 4096 + (i + 1) ≤ n ∧ n < physAddr / 4096 + (i + 1) + remaining
    · rw [if_pos hn2, if_pos (by omega)]
    · rw [if_neg hn2]
      by_cases hn : n = (physAddr + i * 4096) / 4096
      · rw [if_pos hn, if_pos (by omega)]
        rw [show physAddr + i * 4096 = 4096 * n by omega]
      · rw [if_neg hn, if_neg (by omega)]

/-- C1 (amended): called with interrupts disabled on a nonzero 4 KiB
aligned physical address whose pages all lie inside the supported
page-table range, map_mmio succeeds, installs for each of the
ceil(size/4096) pages an entry with Present, Writable and CacheDisable
set and NoExecute clear, leaves every other entry untouched, and returns
phys_to_virt(phys); a misaligned address fails with InvalidAddress. -/
theorem mapMmio_uc_spec (pt : Nat → Nat) (physAddr size : Nat)
    (hal : physAddr % 4096 = 0) (h0 : 0 < physAddr)
    (hrange : physAddr / 4096 + (size + 4095) / 4096 ≤ 2097152) :
    (∀ q : Nat, q % 4096 ≠ 0 → mapMmio pt q size = .error .InvalidAddress) ∧
    ∃ pt1, mapMmio pt physAddr size = .ok (pt1, physAddr + KERNEL_VIRTUAL_BASE) ∧
      (∀ i, i < (size + 4095) / 4096 →
        pt1 (physAddr / 4096 + i) = entrySet (physAddr + i * 4096) UC_FLAGS ∧
        Nat.testBit (pt1 (physAddr / 4096 + i)) 0 = true ∧
        Nat.testBit (pt1 (physAddr / 4096 + i)) 1 = true ∧
        Nat.testBit (pt1 (physAddr / 4096 + i)) 4 = true ∧
        Nat.testBit (pt1 (physAddr / 4096 + i)) 63 = false) ∧
      (∀ n, n < physAddr / 4096 ∨ physAddr / 4096 + (size + 4095) / 4096 ≤ n →
        pt1 n = pt n) := by
  constructor
  · intro q hq
    unfold mapMmio
    rw [if_pos hq]
  obtain ⟨pt1, hloop, hchar⟩ :=
    mapMmioLoop_spec physAddr hal ((size + 4095) / 4096) 0 pt (by omega)
  have hlt : physAddr + KERNEL_VIRTUAL_BASE < U64_LIMIT := by
    simp only [KERNEL_VIRTUAL_BASE, U64_LIMIT]
    omega
  have hmap : mapMmio pt physAddr size = .ok (pt1, physAddr + KERNEL_VIRTUAL_BASE) := by
    simp only [mapMmio]
    rw [if_neg (by omega)]
    simp only [hloop, phys_to_virt]
    rw [if_neg (by omega), Nat.mod_eq_of_lt hlt]
  refine ⟨pt1, hmap, fun i hi => ?_, fun n hn => ?_⟩
  · have he : pt1 (physAddr / 4096 + i) = entrySet (physAddr + i * 4096) UC_FLAGS := by
      rw [hchar, if_pos (by omega), show 4096 * (physAddr / 4096 + i) = physAddr + i * 4096
        by omega]
    refine ⟨he, ?_, ?_, ?_, ?_⟩ <;> rw [he]
    · exact (entrySet_uc_bits _).1
    · exact (entrySet_uc_bits _).2.1
    · exact (entrySet_uc_bits _).2.2.1
    · exact (entrySet_uc_bits _).2.2.2
  · rw [hchar, if_neg (by omega)]

/-- Witness for mapMmio_uc_spec: mapping two pages at 0x1000. -/
theorem mapMmio_uc_spec_witness :
    4096 % 4096 = 0 ∧ 0 < 4096 ∧
    4096 / 4096 + (8192 + 4095) / 4096 ≤ 2097152 ∧
    ((∀ q : Nat, q % 4096 ≠ 0 →
        mapMmio (fun _ => 0) q 8192 = .error .InvalidAddress) ∧
     ∃ pt1, mapMmio (fun _ => 0) 4096 8192 = .ok (pt1, 4096 + KERNEL_VIRTUAL_BASE) ∧
      (∀ i, i < (8192 + 4095) / 4096 →
        pt1 (4096 / 4096 + i) = entrySet (4096 + i * 4096) UC_FLAGS ∧
        Nat.testBit (pt1 (4096 / 4096 + i)) 0 = true ∧
        Nat.testBit (pt1 (4096 / 4096 + i)) 1 = true ∧
        Nat.testBit (pt1 (4096 / 4096 + i)) 4 = true ∧
        Nat.testBit (pt1 (4096 / 4096 + i)) 63 = false) ∧
      (∀ n, n < 4096 / 4096 ∨ 4096 / 4096 + (8192 + 4095) / 4096 ≤ n →
        pt1 n = (fun _ => (0 : Nat)) n)) :=
  ⟨by decide, by decide, by decide,
    mapMmio_uc_spec (fun _ => 0) 4096 8192 (by decide) (by decide) (by decide)⟩

/-- C1 counterexample: map_mmio at phys = 0 satisfies the alignment and
range premises of the claim yet fails with InvalidAddress, and a
successful mapping at 0x1000 installs an entry with the NoExecute bit
clear, not set. -/
theorem mapMmio_claim_counterexample :
    mapMmio (fun _ => 0) 0 4096 = .error .InvalidAddress ∧
    (mapMmio (fun _ => 0) 4096 4096).map (fun r => (Nat.testBit (r.1 1) 63, r.2)) =
      .ok (false, 4096 + KERNEL_VIRTUAL_BASE) := by
  exact ⟨rfl, rfl⟩

/-! ## Claim C9: map_huge_2mb conflict semantics -/

/-- C9 (amended): map_huge_2mb reports ExistingMappingConflict only when
the target page-directory entry is Present with HugePage clear; when the
address is nonzero, 2 MiB aligned and in range, and the existing entry
is itself a huge page or not present, the call succeeds and overwrites
the entry with Present, Writable and HugePage plus the extra flags. -/
theorem mapHuge2mb_conflict_spec (pd : Nat → Nat) (physAddr flags : Nat) :
    (mapHuge2mb pd physAddr flags = .error .ExistingMappingConflict →
      is_present (pd (physAddr / 2097152)) = true ∧
      is_huge_page (pd (physAddr / 2097152)) = false) ∧
    (physAddr % 2097152 = 0 → 0 < physAddr → physAddr / 2097152 < 4096 →
      (is_present (pd (physAddr / 2097152)) = false ∨
        is_huge_page (pd (physAddr / 2097152)) = true) →
      (mapHuge2mb pd physAddr flags).map (fun r => (r.1 (physAddr / 2097152), r.2)) =
        .ok (entrySet physAddr (HUGE_FLAGS ||| flags), physAddr + KERNEL_VIRTUAL_BASE)) := by
  constructor
  · intro h
    unfold mapHuge2mb at h
    by_cases h1 : physAddr % 2097152 ≠ 0
    · rw [if_pos h1] at h
      simp at h
    rw [if_neg h1] at h
    by_cases h2 : 8 ≤ physAddr / 2097152 / 512
    · rw [if_pos h2] at h
      simp at h
    rw [if_neg h2] at h
    by_cases h3 : (is_present (pd (physAddr / 2097152)) &&
        !is_huge_page (pd (physAddr / 2097152))) = true
    · constructor
      · cases hp : is_present (pd (physAddr / 2097152)) with
        | true => rfl
        | false => rw [hp] at h3; simp at h3
      · cases hh : is_huge_page (pd (physAddr / 2097152)) with
        | false => rfl
        | true => rw [hh] at h3; simp at h3
    · rw [if_neg h3] at h
      unfold phys_to_virt at h
      by_cases h4 : physAddr = 0
      · rw [if_pos h4] at h
        simp at h
      · rw [if_neg h4] at h
        simp at h
  · intro hal h0 hrange hok
    unfold mapHuge2mb
    rw [if_neg (by omega)]
    rw [if_neg (by omega : ¬ 8 ≤ physAddr / 2097152 / 512)]
    have hcond : ¬ ((is_present (pd (physAddr / 2097152)) &&
        !is_huge_page (pd (physAddr / 2097152))) = true) := by
      rcases hok with h | h <;> simp [h]
    rw [if_neg hcond]
    have hlt : physAddr + KERNEL_VIRTUAL_BASE < U64_LIMIT := by
      simp only [KERNEL_VIRTUAL_BASE, U64_LIMIT]
      omega
    unfold phys_to_virt
    rw [if_neg (by omega), Nat.mod_eq_of_lt hlt]
    simp only [Except.map]
    rw [if_pos trivial]

/-- Witness for mapHuge2mb_conflict_spec: remapping the empty entry at
2 MiB succeeds. -/
theorem mapHuge2mb_conflict_spec_witness :
    2097152 % 2097152 = 0 ∧ 0 < 2097152 ∧ 2097152 / 2097152 < 4096 ∧
    is_present ((fun _ => (0 : Nat)) (2097152 / 2097152)) = false ∧
    (mapHuge2mb (fun _ => 0) 2097152 0).map (fun r => (r.1 (2097152 / 2097152), r.2)) =
      .ok (entrySet 2097152 (HUGE_FLAGS ||| 0), 2097152 + KERNEL_VIRTUAL_BASE) :=
  ⟨by decide, by decide, by decide,    rfl,
    (mapHuge2mb_conflict_spec (fun _ => 0) 2097152 0).2 (by decide) (by decide) (by decide)
      (Or.inl rfl)⟩

/-- C9 counterexample: at phys = 0 the target entry is aligned, in range
and not present, yet the call fails with InvalidAddress rather than
succeeding. -/
theorem mapHuge2mb_zero_counterexample :
    (0 : Nat) % 2097152 = 0 ∧ (0 : Nat) / 2097152 < 4096 ∧
    is_present ((fun _ => (0 : Nat)) ((0 : Nat) / 2097152)) = false ∧
    mapHuge2mb (fun _ => 0) 0 0 = .error .InvalidAddress :=
  ⟨rfl, by decide, rfl, rfl⟩

end VitrOS
